import Mathlib

/-!
Shallow embedding of `src/squash_zip/zip_file_record.rs` (PackSquash's ZIP
file record serialization core). Byte emission to the asynchronous sink is
modelled as pure functions producing `List Nat`, where each element is one
byte (the code only ever appends bytes via `write_all`, in a fixed order, so
the byte sequence a successful `write` produces is exactly this list).
Machine integers are modelled as `Nat` (with explicit `% 2 ^ w` at the points
where Rust performs an `as` truncating cast) and the one `i8`/`i64` value as
`Int` with two's-complement serialization.
-/

namespace ZipRec

/-- Little-endian serialization of a `u16` (`u16::to_le_bytes`). -/
def u16le (n : Nat) : List Nat := [n % 256, n / 2 ^ 8 % 256]

/-- Little-endian serialization of a `u32` (`u32::to_le_bytes`). -/
def u32le (n : Nat) : List Nat :=
  [n % 256, n / 2 ^ 8 % 256, n / 2 ^ 16 % 256, n / 2 ^ 24 % 256]

/-- Little-endian serialization of a `u64` (`u64::to_le_bytes`). -/
def u64le (n : Nat) : List Nat :=
  [n % 256, n / 2 ^ 8 % 256, n / 2 ^ 16 % 256, n / 2 ^ 24 % 256,
   n / 2 ^ 32 % 256, n / 2 ^ 40 % 256, n / 2 ^ 48 % 256, n / 2 ^ 56 % 256]

/-- Little-endian serialization of an `i64` (`i64::to_le_bytes`): the
two's-complement bit pattern is the value modulo `2 ^ 64` (`Int`'s `%` is
the euclidean remainder, so this is nonnegative). -/
def i64le (z : Int) : List Nat := u64le (z % 2 ^ 64).toNat

/-- `DUMMY_SQUASH_TIME`: `((0b0000000_0001_00001 << 16) as u32).to_le_bytes()`.
`0b0000000000100001 = 33`, so the constant is `33 * 2 ^ 16` in LE bytes. -/
def DUMMY_SQUASH_TIME : List Nat := u32le (33 * 2 ^ 16)

/-- `FILE_ATTRIBUTE_READONLY`. -/
def FILE_ATTRIBUTE_READONLY : Nat := 0x1

/-- `ZipFeature`, declared in descending version-needed-to-extract order. -/
inductive ZipFeature where
  | zip64Extensions
  | deflateCompression
  | basicFeatures
deriving DecidableEq

/-- `ZipFeature::to_version_needed_to_extract`. -/
def ZipFeature.to_version_needed_to_extract : ZipFeature → Nat
  | .zip64Extensions => 45
  | .deflateCompression => 20
  | .basicFeatures => 10

/-- An `EnumSet<ZipFeature>`: membership of each of the three features. -/
structure ZipFeatureSet where
  zip64Extensions : Bool
  deflateCompression : Bool
  basicFeatures : Bool
deriving DecidableEq

/-- The empty `EnumSet<ZipFeature>` (`EnumSet::empty()`). -/
def ZipFeatureSet.empty : ZipFeatureSet := ⟨false, false, false⟩

/-- Membership in an `EnumSet<ZipFeature>`. -/
def ZipFeatureSet.mem (s : ZipFeatureSet) : ZipFeature → Bool
  | .zip64Extensions => s.zip64Extensions
  | .deflateCompression => s.deflateCompression
  | .basicFeatures => s.basicFeatures

/-- `version_needed_to_extract`: `EnumSet::iter` yields elements in
declaration order, so `.iter().next()` is the earliest-declared (highest
version) feature present; `unwrap_or(BasicFeatures)` covers the empty set. -/
def version_needed_to_extract (s : ZipFeatureSet) : Nat :=
  if s.zip64Extensions then ZipFeature.zip64Extensions.to_version_needed_to_extract
  else if s.deflateCompression then ZipFeature.deflateCompression.to_version_needed_to_extract
  else if s.basicFeatures then ZipFeature.basicFeatures.to_version_needed_to_extract
  else ZipFeature.basicFeatures.to_version_needed_to_extract

/-- The spec's description of `version_needed_to_extract`: the version of the
highest-ranked feature present, or the base version 10 for the empty set.
Stated from the spec's words, to be compared with the source definition. -/
def version_needed_to_extract_spec (s : ZipFeatureSet) : Nat :=
  max (if s.zip64Extensions then 45 else 0)
    (max (if s.deflateCompression then 20 else 0)
      (max (if s.basicFeatures then 10 else 0) 10))

/-- `get_version_made_by`. -/
def get_version_made_by (spoof_version_made_by : Bool) : List Nat :=
  if spoof_version_made_by then [30, 3]
  else u16le ZipFeature.zip64Extensions.to_version_needed_to_extract

/-- `CompressionMethod`. -/
inductive CompressionMethod where
  | store
  | deflate
deriving DecidableEq

/-- `SquashZipError` (the error enum lives outside this file in the source
tree; `UnknownCompressionMethod(u16)` is the variant named at the
construction site in `from_compression_method_field`, and
`fileNameTooLong` — modelled from the spec: the spec names the failure of
`LocalFileHeader::new`'s `u16` conversion `FileNameTooLong` — is the variant
the `?` on `file_name.len().try_into()` produces). -/
inductive SquashZipError where
  | unknownCompressionMethod (field : Nat)
  | fileNameTooLong
deriving DecidableEq

/-- `CompressionMethod::to_compression_method_field`. -/
def CompressionMethod.to_compression_method_field : CompressionMethod → Nat
  | .store => 0
  | .deflate => 8

/-- `CompressionMethod::from_compression_method_field`. -/
def CompressionMethod.from_compression_method_field (field : Nat) :
    Except SquashZipError CompressionMethod :=
  match field with
  | 0 => .ok .store
  | 8 => .ok .deflate
  | _ => .error (.unknownCompressionMethod field)

/-- `get_general_purpose_bit_flag`: bit 11 (EFS, UTF-8 names) is set exactly
when some byte of the file name is ≥ 128 (`!file_name.is_ascii()`). -/
def get_general_purpose_bit_flag (file_name : List Nat) : Nat :=
  (if file_name.all (fun b => b < 128) then 0 else 1) * 2 ^ 11

/-- `LOCAL_FILE_HEADER_SIGNATURE = 0x04034B50u32.to_le_bytes()`. -/
def LOCAL_FILE_HEADER_SIGNATURE : List Nat := u32le 0x04034B50

/-- `LOCAL_FILE_HEADER_CONSTANT_FIELDS_PADDING = [0u8; 30]`. -/
def LOCAL_FILE_HEADER_CONSTANT_FIELDS_PADDING : List Nat := List.replicate 30 0

/-- `LocalFileHeader`. The file name is its UTF-8 byte sequence; `squash_time`
is the raw `[u8; 4]`. -/
structure LocalFileHeader where
  compression_method : CompressionMethod
  squash_time : List Nat
  crc32 : Nat
  compressed_size : Nat
  uncompressed_size : Nat
  file_name_length : Nat
  file_name : List Nat
deriving DecidableEq

/-- `LocalFileHeader::new`: `file_name.len().try_into::<u16>()` fails exactly
when the byte length exceeds `u16::MAX = 65535`. -/
def LocalFileHeader.new (file_name : List Nat) :
    Except SquashZipError LocalFileHeader :=
  if file_name.length > 65535 then .error .fileNameTooLong
  else
    .ok
      { compression_method := .store
        squash_time := DUMMY_SQUASH_TIME
        crc32 := 0
        compressed_size := 0
        uncompressed_size := 0
        file_name_length := file_name.length
        file_name := file_name }

/-- The feature set `LocalFileHeader::write` computes: empty, plus
`DeflateCompression` when the compression method is `Deflate`. -/
def LocalFileHeader.zip_features (h : LocalFileHeader) : ZipFeatureSet :=
  { ZipFeatureSet.empty with
      deflateCompression := h.compression_method = .deflate }

/-- `LocalFileHeader::write`: the byte sequence emitted to the sink. -/
def LocalFileHeader.write (h : LocalFileHeader) : List Nat :=
  LOCAL_FILE_HEADER_SIGNATURE
    ++ u16le (version_needed_to_extract h.zip_features)
    ++ u16le (get_general_purpose_bit_flag h.file_name)
    ++ u16le h.compression_method.to_compression_method_field
    ++ h.squash_time
    ++ u32le h.crc32
    ++ u32le h.compressed_size
    ++ u32le h.uncompressed_size
    ++ u16le h.file_name_length
    ++ u16le 0
    ++ h.file_name

/-- `LocalFileHeader::reserve_space`: 30 zero bytes plus `file_name_length`
zero bytes. -/
def LocalFileHeader.reserve_space (h : LocalFileHeader) : List Nat :=
  LOCAL_FILE_HEADER_CONSTANT_FIELDS_PADDING ++ List.replicate h.file_name_length 0

/-- `LocalFileHeader::get_size`. -/
def LocalFileHeader.get_size (h : LocalFileHeader) : Nat :=
  LOCAL_FILE_HEADER_CONSTANT_FIELDS_PADDING.length + h.file_name_length

/-- `CENTRAL_DIRECTORY_HEADER_SIGNATURE = 0x02014B50u32.to_le_bytes()`. -/
def CENTRAL_DIRECTORY_HEADER_SIGNATURE : List Nat := u32le 0x02014B50

/-- `CentralDirectoryHeader`. -/
structure CentralDirectoryHeader where
  compression_method : CompressionMethod
  squash_time : List Nat
  crc32 : Nat
  compressed_size : Nat
  uncompressed_size : Nat
  local_header_disk_number : Nat
  local_header_offset : Nat
  file_name : List Nat
  spoof_version_made_by : Bool
deriving DecidableEq

/-- `CentralDirectoryHeader::local_header_offset_requires_zip64_extensions`:
the offset exceeds `u32::MAX`. -/
def CentralDirectoryHeader.local_header_offset_requires_zip64_extensions
    (h : CentralDirectoryHeader) : Bool :=
  h.local_header_offset > 4294967295

/-- `CentralDirectoryHeader::requires_zip64_extensions`. -/
def CentralDirectoryHeader.requires_zip64_extensions
    (h : CentralDirectoryHeader) : Bool :=
  h.local_header_offset_requires_zip64_extensions

/-- `CentralDirectoryHeader::compute_extra_field_length`:
`4 * requires_zip64 + 8 * offset_requires_zip64`. -/
def CentralDirectoryHeader.compute_extra_field_length
    (h : CentralDirectoryHeader) : Nat :=
  4 * (if h.requires_zip64_extensions then 1 else 0)
    + 8 * (if h.local_header_offset_requires_zip64_extensions then 1 else 0)

/-- The feature set `CentralDirectoryHeader::write` computes: empty, plus
`DeflateCompression` when the method is `Deflate`, plus `Zip64Extensions`
when ZIP64 extensions are required. -/
def CentralDirectoryHeader.zip_features (h : CentralDirectoryHeader) :
    ZipFeatureSet :=
  { ZipFeatureSet.empty with
      deflateCompression := h.compression_method = .deflate
      zip64Extensions := h.requires_zip64_extensions }

/-- The fixed 46-byte leading part of `CentralDirectoryHeader::write`, i.e.
every field the code emits before the file name, in emission order.
`self.file_name.len() as u16` and `self.local_header_offset as u32` are
truncating casts, hence the explicit `% 2 ^ w`. -/
def CentralDirectoryHeader.fixed_part (h : CentralDirectoryHeader) : List Nat :=
  CENTRAL_DIRECTORY_HEADER_SIGNATURE
    ++ get_version_made_by h.spoof_version_made_by
    ++ u16le (version_needed_to_extract h.zip_features)
    ++ u16le (get_general_purpose_bit_flag h.file_name)
    ++ u16le h.compression_method.to_compression_method_field
    ++ h.squash_time
    ++ u32le h.crc32
    ++ u32le h.compressed_size
    ++ u32le h.uncompressed_size
    ++ u16le (h.file_name.length % 2 ^ 16)
    ++ u16le h.compute_extra_field_length
    ++ [0, 0]
    ++ u16le h.local_header_disk_number
    ++ [0, 0]
    ++ u32le FILE_ATTRIBUTE_READONLY
    ++ u32le (if h.local_header_offset_requires_zip64_extensions then 4294967295
              else h.local_header_offset % 2 ^ 32)

/-- The ZIP64 extended information extra field `CentralDirectoryHeader::write`
emits after the file name: tag `0x0001`, data size (`extra_field_length - 4`),
then the 8-byte local header offset, only when ZIP64 extensions are
required. -/
def CentralDirectoryHeader.zip64_extra_field (h : CentralDirectoryHeader) :
    List Nat :=
  if h.requires_zip64_extensions then
    u16le 0x0001
      ++ u16le (h.compute_extra_field_length - 4)
      ++ (if h.local_header_offset_requires_zip64_extensions then
            u64le h.local_header_offset
          else [])
  else []

/-- `CentralDirectoryHeader::write`: the byte sequence emitted to the sink
(fixed fields, then the file name, then the conditional ZIP64 extra
field). -/
def CentralDirectoryHeader.write (h : CentralDirectoryHeader) : List Nat :=
  h.fixed_part ++ h.file_name ++ h.zip64_extra_field

/-- `CentralDirectoryHeader::get_size`. -/
def CentralDirectoryHeader.get_size (h : CentralDirectoryHeader) : Nat :=
  46 + h.file_name.length + h.compute_extra_field_length

/-- `ZIP64_END_OF_CENTRAL_DIRECTORY_SIGNATURE = 0x06064B50u32.to_le_bytes()`. -/
def ZIP64_END_OF_CENTRAL_DIRECTORY_SIGNATURE : List Nat := u32le 0x06064B50

/-- `ZIP64_END_OF_CENTRAL_DIRECTORY_LOCATOR_SIGNATURE =
0x07064B50u32.to_le_bytes()`. -/
def ZIP64_END_OF_CENTRAL_DIRECTORY_LOCATOR_SIGNATURE : List Nat :=
  u32le 0x07064B50

/-- `END_OF_CENTRAL_DIRECTORY_SIGNATURE = 0x06054B50u32.to_le_bytes()`. -/
def END_OF_CENTRAL_DIRECTORY_SIGNATURE : List Nat := u32le 0x06054B50

/-- `EndOfCentralDirectory`. The `u16`/`u32`/`u64` fields are `Nat`; the `i8`
`zip64_record_size_offset` is an `Int`. -/
structure EndOfCentralDirectory where
  disk_number : Nat
  central_directory_start_disk_number : Nat
  central_directory_entry_count_current_disk : Nat
  total_central_directory_entry_count : Nat
  central_directory_size : Nat
  central_directory_start_offset : Nat
  total_number_of_disks : Nat
  current_file_offset : Nat
  zip64_record_size_offset : Int
  spoof_version_made_by : Bool
  zero_out_unused_zip64_fields : Bool
deriving DecidableEq

/-- `entry_count_current_disk_requires_zip64_extensions`: count exceeds
`u16::MAX`. -/
def EndOfCentralDirectory.entry_count_current_disk_requires_zip64_extensions
    (e : EndOfCentralDirectory) : Bool :=
  e.central_directory_entry_count_current_disk > 65535

/-- `total_entry_count_requires_zip64_extensions`: count exceeds
`u16::MAX`. -/
def EndOfCentralDirectory.total_entry_count_requires_zip64_extensions
    (e : EndOfCentralDirectory) : Bool :=
  e.total_central_directory_entry_count > 65535

/-- `central_directory_size_requires_zip64_extensions`: size exceeds
`u32::MAX`. -/
def EndOfCentralDirectory.central_directory_size_requires_zip64_extensions
    (e : EndOfCentralDirectory) : Bool :=
  e.central_directory_size > 4294967295

/-- `central_directory_start_offset_requires_zip64_extensions`: offset exceeds
`u32::MAX`. -/
def EndOfCentralDirectory.central_directory_start_offset_requires_zip64_extensions
    (e : EndOfCentralDirectory) : Bool :=
  e.central_directory_start_offset > 4294967295

/-- `EndOfCentralDirectory::requires_zip64_extensions`: the disjunction of the
four per-field overflow predicates. -/
def EndOfCentralDirectory.requires_zip64_extensions
    (e : EndOfCentralDirectory) : Bool :=
  e.entry_count_current_disk_requires_zip64_extensions
    || e.total_entry_count_requires_zip64_extensions
    || e.central_directory_size_requires_zip64_extensions
    || e.central_directory_start_offset_requires_zip64_extensions

/-- The 56-byte ZIP64 end-of-central-directory record
`EndOfCentralDirectory::write` emits when ZIP64 extensions are required, in
emission order. The `u16`-to-`u32` widening casts on the two disk-number
fields are lossless. -/
def EndOfCentralDirectory.zip64_record (e : EndOfCentralDirectory) : List Nat :=
  ZIP64_END_OF_CENTRAL_DIRECTORY_SIGNATURE
    ++ i64le (max (44 + e.zip64_record_size_offset) 0)
    ++ get_version_made_by e.spoof_version_made_by
    ++ u16le ZipFeature.zip64Extensions.to_version_needed_to_extract
    ++ u32le (if e.zero_out_unused_zip64_fields then 0 else e.disk_number)
    ++ u32le (if e.zero_out_unused_zip64_fields then 0
              else e.central_directory_start_disk_number)
    ++ u64le (if e.zero_out_unused_zip64_fields
                  && !e.entry_count_current_disk_requires_zip64_extensions then 0
              else e.central_directory_entry_count_current_disk)
    ++ u64le (if e.zero_out_unused_zip64_fields
                  && !e.total_entry_count_requires_zip64_extensions then 0
              else e.total_central_directory_entry_count)
    ++ u64le (if e.zero_out_unused_zip64_fields
                  && !e.central_directory_size_requires_zip64_extensions then 0
              else e.central_directory_size)
    ++ u64le (if e.zero_out_unused_zip64_fields
                  && !e.central_directory_start_offset_requires_zip64_extensions
              then 0
              else e.central_directory_start_offset)

/-- The 20-byte ZIP64 end-of-central-directory locator emitted right after the
ZIP64 record. -/
def EndOfCentralDirectory.zip64_locator (e : EndOfCentralDirectory) : List Nat :=
  ZIP64_END_OF_CENTRAL_DIRECTORY_LOCATOR_SIGNATURE
    ++ u32le (if e.zero_out_unused_zip64_fields then 0
              else e.central_directory_start_disk_number)
    ++ u64le e.current_file_offset
    ++ u32le e.total_number_of_disks

/-- The 22-byte classic end-of-central-directory record, always emitted last.
`as u16`/`as u32` on the non-overflowing branches are truncating casts, hence
the explicit `% 2 ^ w`. -/
def EndOfCentralDirectory.classic_record (e : EndOfCentralDirectory) : List Nat :=
  END_OF_CENTRAL_DIRECTORY_SIGNATURE
    ++ u16le e.disk_number
    ++ u16le e.central_directory_start_disk_number
    ++ u16le (if e.entry_count_current_disk_requires_zip64_extensions then 65535
              else e.central_directory_entry_count_current_disk % 2 ^ 16)
    ++ u16le (if e.total_entry_count_requires_zip64_extensions then 65535
              else e.total_central_directory_entry_count % 2 ^ 16)
    ++ u32le (if e.central_directory_size_requires_zip64_extensions
              then 4294967295
              else e.central_directory_size % 2 ^ 32)
    ++ u32le (if e.central_directory_start_offset_requires_zip64_extensions
              then 4294967295
              else e.central_directory_start_offset % 2 ^ 32)
    ++ u16le 0

/-- `EndOfCentralDirectory::write`: the ZIP64 record and its locator when
ZIP64 extensions are required, then always the classic record. -/
def EndOfCentralDirectory.write (e : EndOfCentralDirectory) : List Nat :=
  (if e.requires_zip64_extensions then e.zip64_record ++ e.zip64_locator
   else [])
    ++ e.classic_record

/-- `EndOfCentralDirectory::get_size`:
`(56 + 20) * requires_zip64_extensions + 22`. -/
def EndOfCentralDirectory.get_size (e : EndOfCentralDirectory) : Nat :=
  (56 + 20) * (if e.requires_zip64_extensions then 1 else 0) + 22

end ZipRec

namespace ZipRec

/-- C6 -- round-trip of the compression method codec: decoding an encoded
method yields it back for both methods, and decoding any other 16-bit field
value yields the `UnknownCompressionMethod` error carrying that value. -/
theorem compression_method_roundtrip_and_error :
    (∀ m : CompressionMethod,
      CompressionMethod.from_compression_method_field
        m.to_compression_method_field = .ok m) ∧
    ∀ field : Nat, field < 2 ^ 16 → field ≠ 0 → field ≠ 8 →
      CompressionMethod.from_compression_method_field field =
        .error (.unknownCompressionMethod field) := by
  constructor
  · intro m; cases m <;> rfl
  · intro field _ h0 h8
    unfold CompressionMethod.from_compression_method_field
    match field, h0, h8 with
    | 0, h0, _ => exact absurd rfl h0
    | 8, _, h8 => exact absurd rfl h8
    | 1, _, _ | 2, _, _ | 3, _, _ | 4, _, _ | 5, _, _ | 6, _, _ | 7, _, _ => rfl
    | n + 9, _, _ => rfl

/-- C6 witness: the round-trip and the error case evaluated at `Deflate`
and at field value `7`. -/
theorem compression_method_roundtrip_and_error_witness :
    CompressionMethod.from_compression_method_field
        CompressionMethod.deflate.to_compression_method_field =
      .ok CompressionMethod.deflate ∧
    CompressionMethod.from_compression_method_field 7 =
      .error (.unknownCompressionMethod 7) :=
  ⟨compression_method_roundtrip_and_error.1 .deflate,
   compression_method_roundtrip_and_error.2 7 (by decide) (by decide) (by decide)⟩

/-- C7 -- `LocalFileHeader::new` fails exactly when the file name's byte
length exceeds 65535 (so it succeeds at exactly 65535 bytes and fails at
65536), and on success the header holds `Store` compression, the dummy
squash time, and zero CRC-32, compressed size and uncompressed size. -/
theorem localFileHeader_new_spec (file_name : List Nat) :
    (file_name.length > 65535 →
      LocalFileHeader.new file_name = .error .fileNameTooLong) ∧
    (file_name.length ≤ 65535 →
      LocalFileHeader.new file_name =
        .ok
          { compression_method := .store
            squash_time := DUMMY_SQUASH_TIME
            crc32 := 0
            compressed_size := 0
            uncompressed_size := 0
            file_name_length := file_name.length
            file_name := file_name }) := by
  constructor
  · intro hlong
    simp [LocalFileHeader.new, hlong]
  · intro hok
    simp [LocalFileHeader.new, Nat.not_lt.mpr hok]

/-- C7 witness: a 65535-byte name succeeds and a 65536-byte name fails. -/
theorem localFileHeader_new_spec_witness :
    (List.replicate 65535 97 : List Nat).length ≤ 65535 ∧
    (List.replicate 65536 97 : List Nat).length > 65535 ∧
    LocalFileHeader.new (List.replicate 65535 97) =
      .ok
        { compression_method := .store
          squash_time := DUMMY_SQUASH_TIME
          crc32 := 0
          compressed_size := 0
          uncompressed_size := 0
          file_name_length := (List.replicate 65535 97 : List Nat).length
          file_name := List.replicate 65535 97 } ∧
    LocalFileHeader.new (List.replicate 65536 97) = .error .fileNameTooLong := by
  have h1 : (List.replicate 65535 97 : List Nat).length ≤ 65535 := by
    rw [List.length_replicate]
  have h2 : (List.replicate 65536 97 : List Nat).length > 65535 := by
    rw [List.length_replicate]; decide
  exact ⟨h1, h2, (localFileHeader_new_spec (List.replicate 65535 97)).2 h1,
    (localFileHeader_new_spec (List.replicate 65536 97)).1 h2⟩

/-- C5 -- `version_needed_to_extract` returns the version of the
highest-ranked feature present (45 for `Zip64Extensions`, 20 for
`DeflateCompression`, 10 for `BasicFeatures`) and 10 for the empty set,
depending only on the set's membership; consequently the version-needed
field written by `CentralDirectoryHeader::write` (bytes 6-7 of its output)
is 45 whenever ZIP64 extensions are required, else 20 for `Deflate`,
else 10. -/
theorem version_needed_to_extract_spec_correct :
    (∀ s : ZipFeatureSet,
      version_needed_to_extract s = version_needed_to_extract_spec s ∧
      (∀ f : ZipFeature, s.mem f → f.to_version_needed_to_extract ≤
        version_needed_to_extract s) ∧
      ((∃ f : ZipFeature, s.mem f ∧
          f.to_version_needed_to_extract = version_needed_to_extract s) ∨
        s = ZipFeatureSet.empty ∧ version_needed_to_extract s = 10)) ∧
    ∀ h : CentralDirectoryHeader,
      (h.write.drop 6).take 2 =
        u16le (if h.requires_zip64_extensions then 45
               else if h.compression_method = .deflate then 20 else 10) := by
  constructor
  · rintro ⟨a, b, c⟩
    refine ⟨by cases a <;> cases b <;> cases c <;> decide, ?_, ?_⟩
    · intro f hf
      cases a <;> cases b <;> cases c <;> cases f <;> simp_all [ZipFeatureSet.mem,
        version_needed_to_extract, ZipFeature.to_version_needed_to_extract]
    · cases a <;> cases b <;> cases c
      · right; decide
      all_goals left
      · exact ⟨.basicFeatures, by decide⟩
      · exact ⟨.deflateCompression, by decide⟩
      · exact ⟨.deflateCompression, by decide⟩
      all_goals exact ⟨.zip64Extensions, by decide⟩
  · intro h
    have hv : version_needed_to_extract h.zip_features =
        if h.requires_zip64_extensions then 45
        else if h.compression_method = .deflate then 20 else 10 := by
      simp only [CentralDirectoryHeader.zip_features, ZipFeatureSet.empty,
        version_needed_to_extract, ZipFeature.to_version_needed_to_extract]
      by_cases h64 : h.requires_zip64_extensions <;>
        by_cases hd : h.compression_method = .deflate <;> simp [h64, hd]
    by_cases hs : h.spoof_version_made_by <;>
      simp [CentralDirectoryHeader.write, CentralDirectoryHeader.fixed_part,
        CENTRAL_DIRECTORY_HEADER_SIGNATURE, u32le, get_version_made_by, u16le,
        hv, hs, ZipFeature.to_version_needed_to_extract]

/-- C1 -- for a local file header whose stored name length matches the file
name's byte length (the invariant `new` establishes; any length up to 65535)
and whose squash time is 4 bytes, `get_size()` is `30 +` the name's byte
length, and equals both the number of bytes `write` emits and the number of
bytes `reserve_space` emits. -/
theorem localFileHeader_get_size_eq_write_length (h : LocalFileHeader)
    (hlen : h.file_name_length = h.file_name.length)
    (_hbound : h.file_name.length ≤ 65535)
    (ht : h.squash_time.length = 4) :
    h.get_size = 30 + h.file_name.length ∧
    h.write.length = h.get_size ∧
    h.reserve_space.length = h.get_size := by
  refine ⟨?_, ?_, ?_⟩
  · simp [LocalFileHeader.get_size, LOCAL_FILE_HEADER_CONSTANT_FIELDS_PADDING,
      hlen]
  · simp [LocalFileHeader.write, LocalFileHeader.get_size,
      LOCAL_FILE_HEADER_SIGNATURE, LOCAL_FILE_HEADER_CONSTANT_FIELDS_PADDING,
      u32le, u16le, ht, hlen]
    omega
  · simp [LocalFileHeader.reserve_space, LocalFileHeader.get_size]

/-- C1 witness: the size identities at a concrete header (built by `new` on
the 3-byte name "a/b"). -/
theorem localFileHeader_get_size_eq_write_length_witness :
    let h : LocalFileHeader :=
      { compression_method := .store
        squash_time := DUMMY_SQUASH_TIME
        crc32 := 0
        compressed_size := 0
        uncompressed_size := 0
        file_name_length := 3
        file_name := [97, 47, 98] }
    h.get_size = 30 + h.file_name.length ∧
    h.write.length = h.get_size ∧
    h.reserve_space.length = h.get_size :=
  localFileHeader_get_size_eq_write_length _ (by decide) (by decide) (by decide)

/-- A list of length four is a four-element literal. -/
theorem list_eq_of_length_four (l : List Nat) (h : l.length = 4) :
    ∃ a b c d, l = [a, b, c, d] := by
  cases l with
  | nil => simp at h
  | cons a l1 =>
    cases l1 with
    | nil => simp at h
    | cons b l2 =>
      cases l2 with
      | nil => simp at h
      | cons c l3 =>
        cases l3 with
        | nil => simp at h
        | cons d l4 =>
          cases l4 with
          | nil => exact ⟨a, b, c, d, rfl⟩
          | cons e l5 => simp at h

/-- The fixed part of a central directory header is 46 bytes when the squash
time is the 4-byte array it is in the source. -/
theorem centralDirectoryHeader_fixed_part_length (h : CentralDirectoryHeader)
    (ht : h.squash_time.length = 4) : h.fixed_part.length = 46 := by
  simp [CentralDirectoryHeader.fixed_part, CENTRAL_DIRECTORY_HEADER_SIGNATURE,
    u32le, u16le, get_version_made_by, ht]
  by_cases hs : h.spoof_version_made_by <;> simp [hs]

/-- C10 -- the general purpose bit flag is `0x0800` exactly when some byte of
the file name is ≥ 128 and `0x0000` otherwise, so every bit other than
bit 11 is always clear; this is the 2-byte flag word both
`LocalFileHeader::write` (bytes 6-7) and `CentralDirectoryHeader::write`
(bytes 8-9) emit. -/
theorem general_purpose_bit_flag_only_efs :
    (∀ name : List Nat,
      get_general_purpose_bit_flag name =
        (if name.all (fun b => b < 128) then 0 else 0x0800) ∧
      ∀ i : Nat, i ≠ 11 → (get_general_purpose_bit_flag name).testBit i = false) ∧
    (∀ h : LocalFileHeader,
      (h.write.drop 6).take 2 =
        u16le (get_general_purpose_bit_flag h.file_name)) ∧
    ∀ h : CentralDirectoryHeader,
      (h.write.drop 8).take 2 =
        u16le (get_general_purpose_bit_flag h.file_name) := by
  refine ⟨fun name => ⟨?_, ?_⟩, fun h => ?_, fun h => ?_⟩
  · by_cases hn : name.all (fun b => b < 128) <;>
      simp [get_general_purpose_bit_flag, hn]
  · intro i hi
    by_cases hn : name.all (fun b => b < 128)
    · simp [get_general_purpose_bit_flag, hn]
    · have h2 : get_general_purpose_bit_flag name = 2 ^ 11 := by
        simp [get_general_purpose_bit_flag, hn]
      rw [h2]
      exact Nat.testBit_two_pow_of_ne (Ne.symm hi)
  · simp [LocalFileHeader.write, LOCAL_FILE_HEADER_SIGNATURE, u32le, u16le]
  · by_cases hs : h.spoof_version_made_by <;>
      simp [CentralDirectoryHeader.write, CentralDirectoryHeader.fixed_part,
        CENTRAL_DIRECTORY_HEADER_SIGNATURE, u32le, u16le, get_version_made_by,
        hs]

/-- C10 witness: the flag-word facts evaluated at a non-ASCII concrete name
and bit 0. -/
theorem general_purpose_bit_flag_only_efs_witness :
    get_general_purpose_bit_flag [97, 200] =
      (if ([97, 200] : List Nat).all (fun b => b < 128) then 0 else 0x0800) ∧
    (get_general_purpose_bit_flag [97, 200]).testBit 0 = false :=
  ⟨(general_purpose_bit_flag_only_efs.1 [97, 200]).1,
   (general_purpose_bit_flag_only_efs.1 [97, 200]).2 0 (by decide)⟩

/-- C2 -- a central directory header with an in-range local header offset
carries the real offset in the 4-byte offset field (bytes 42-45), emits no
ZIP64 extra field, has extra-field length 0 and `get_size() = 46 +` name
length; one with an overflowing offset writes `0xFFFFFFFF` there and appends
after the file name the 12-byte ZIP64 extra field (tag `0x0001`, data length
8, the real 8-byte offset), making `get_size()` exactly 12 larger; in both
cases `get_size()` equals the number of bytes `write` emits. -/
theorem centralDirectoryHeader_zip64_offset_spec (h : CentralDirectoryHeader)
    (ht : h.squash_time.length = 4) :
    h.write.length = h.get_size ∧
    (h.local_header_offset ≤ 4294967295 →
      h.compute_extra_field_length = 0 ∧
      h.get_size = 46 + h.file_name.length ∧
      (h.write.drop 42).take 4 = u32le h.local_header_offset ∧
      h.write.drop (46 + h.file_name.length) = []) ∧
    (h.local_header_offset > 4294967295 →
      (h.write.drop 42).take 4 = u32le 4294967295 ∧
      h.write.drop (46 + h.file_name.length) =
        u16le 0x0001 ++ u16le 8 ++ u64le h.local_header_offset ∧
      h.get_size = (46 + h.file_name.length) + 12) := by
  obtain ⟨a, b, c, d, hst⟩ := list_eq_of_length_four _ ht
  have hdrop : h.write.drop (46 + h.file_name.length) = h.zip64_extra_field := by
    have hl : (h.fixed_part ++ h.file_name).length = 46 + h.file_name.length := by
      simp [centralDirectoryHeader_fixed_part_length h ht]
    calc h.write.drop (46 + h.file_name.length)
        = ((h.fixed_part ++ h.file_name) ++ h.zip64_extra_field).drop
            (46 + h.file_name.length) := by
          simp [CentralDirectoryHeader.write]
      _ = h.zip64_extra_field := List.drop_left' hl
  refine ⟨?_, fun hin => ?_, fun hover => ?_⟩
  · have hreq64 :
        h.local_header_offset_requires_zip64_extensions =
          decide (h.local_header_offset > 4294967295) := by
      simp [CentralDirectoryHeader.local_header_offset_requires_zip64_extensions]
    by_cases hov : h.local_header_offset > 4294967295 <;>
      simp [CentralDirectoryHeader.write, CentralDirectoryHeader.get_size,
        CentralDirectoryHeader.fixed_part, CentralDirectoryHeader.zip64_extra_field,
        CentralDirectoryHeader.compute_extra_field_length,
        CentralDirectoryHeader.requires_zip64_extensions, hreq64, hov,
        CENTRAL_DIRECTORY_HEADER_SIGNATURE, u32le, u16le, u64le,
        get_version_made_by, hst] <;>
      by_cases hs : h.spoof_version_made_by <;> simp [hs] <;> omega
  · have hreq : h.local_header_offset_requires_zip64_extensions = false := by
      simp [CentralDirectoryHeader.local_header_offset_requires_zip64_extensions,
        Nat.not_lt.mpr hin]
    have hreq2 : h.requires_zip64_extensions = false := by
      simp [CentralDirectoryHeader.requires_zip64_extensions, hreq]
    have hmod : h.local_header_offset % 2 ^ 32 = h.local_header_offset :=
      Nat.mod_eq_of_lt (by omega)
    refine ⟨?_, ?_, ?_, ?_⟩
    · simp [CentralDirectoryHeader.compute_extra_field_length, hreq, hreq2]
    · simp [CentralDirectoryHeader.get_size,
        CentralDirectoryHeader.compute_extra_field_length, hreq, hreq2]
    · by_cases hs : h.spoof_version_made_by <;>
        simp [CentralDirectoryHeader.write, CentralDirectoryHeader.fixed_part,
          CENTRAL_DIRECTORY_HEADER_SIGNATURE, u32le, u16le, get_version_made_by,
          hs, hst, hreq, hmod] <;>
        refine ⟨?_, ?_, ?_, ?_⟩ <;> omega
    · rw [hdrop]
      simp [CentralDirectoryHeader.zip64_extra_field, hreq2]
  · have hreq : h.local_header_offset_requires_zip64_extensions = true := by
      simp [CentralDirectoryHeader.local_header_offset_requires_zip64_extensions,
        hover]
    have hreq2 : h.requires_zip64_extensions = true := by
      simp [CentralDirectoryHeader.requires_zip64_extensions, hreq]
    have hextra : h.compute_extra_field_length = 12 := by
      simp [CentralDirectoryHeader.compute_extra_field_length, hreq, hreq2]
    refine ⟨?_, ?_, ?_⟩
    · by_cases hs : h.spoof_version_made_by <;>
        simp [CentralDirectoryHeader.write, CentralDirectoryHeader.fixed_part,
          CENTRAL_DIRECTORY_HEADER_SIGNATURE, u32le, u16le, get_version_made_by,
          hs, hst, hreq]
    · rw [hdrop]
      simp [CentralDirectoryHeader.zip64_extra_field, hreq2, hreq, hextra]
    · simp [CentralDirectoryHeader.get_size, hextra]

/-- C2 witness: the size and field facts at a concrete header with a 4-byte
squash time. -/
theorem centralDirectoryHeader_zip64_offset_spec_witness :
    let h : CentralDirectoryHeader :=
      { compression_method := .store
        squash_time := DUMMY_SQUASH_TIME
        crc32 := 0
        compressed_size := 0
        uncompressed_size := 0
        local_header_disk_number := 0
        local_header_offset := 5000000000
        file_name := [97]
        spoof_version_made_by := false }
    h.write.length = h.get_size ∧
    (h.local_header_offset ≤ 4294967295 →
      h.compute_extra_field_length = 0 ∧
      h.get_size = 46 + h.file_name.length ∧
      (h.write.drop 42).take 4 = u32le h.local_header_offset ∧
      h.write.drop (46 + h.file_name.length) = []) ∧
    (h.local_header_offset > 4294967295 →
      (h.write.drop 42).take 4 = u32le 4294967295 ∧
      h.write.drop (46 + h.file_name.length) =
        u16le 0x0001 ++ u16le 8 ++ u64le h.local_header_offset ∧
      h.get_size = (46 + h.file_name.length) + 12) :=
  centralDirectoryHeader_zip64_offset_spec _ (by decide)

/-- C5 witness: the membership bound evaluated at the singleton ZIP64 set. -/
theorem version_needed_to_extract_spec_correct_witness :
    ZipFeatureSet.mem ⟨true, false, false⟩ ZipFeature.zip64Extensions = true ∧
    ZipFeature.zip64Extensions.to_version_needed_to_extract ≤
      version_needed_to_extract ⟨true, false, false⟩ :=
  ⟨by decide,
   ((version_needed_to_extract_spec_correct.1 ⟨true, false, false⟩).2.1)
     ZipFeature.zip64Extensions (by decide)⟩

/-- The ZIP64 end-of-central-directory record is always 56 bytes. -/
theorem eocd_zip64_record_length (e : EndOfCentralDirectory) :
    e.zip64_record.length = 56 := by
  by_cases hs : e.spoof_version_made_by <;>
    simp [EndOfCentralDirectory.zip64_record,
      ZIP64_END_OF_CENTRAL_DIRECTORY_SIGNATURE, i64le, u64le, u32le, u16le,
      get_version_made_by, hs]

/-- The ZIP64 end-of-central-directory locator is always 20 bytes. -/
theorem eocd_zip64_locator_length (e : EndOfCentralDirectory) :
    e.zip64_locator.length = 20 := by
  simp [EndOfCentralDirectory.zip64_locator,
    ZIP64_END_OF_CENTRAL_DIRECTORY_LOCATOR_SIGNATURE, u64le, u32le, u16le]

/-- The classic end-of-central-directory record is always 22 bytes. -/
theorem eocd_classic_record_length (e : EndOfCentralDirectory) :
    e.classic_record.length = 22 := by
  simp [EndOfCentralDirectory.classic_record, END_OF_CENTRAL_DIRECTORY_SIGNATURE,
    u32le, u16le]

/-- When ZIP64 extensions are required, the classic record occupies the bytes
of the output from offset 76 on. -/
theorem eocd_write_drop_76 (e : EndOfCentralDirectory)
    (hreq : e.requires_zip64_extensions = true) :
    e.write.drop 76 = e.classic_record := by
  have hl : (e.zip64_record ++ e.zip64_locator).length = 76 := by
    simp [eocd_zip64_record_length, eocd_zip64_locator_length]
  calc e.write.drop 76
      = ((e.zip64_record ++ e.zip64_locator) ++ e.classic_record).drop 76 := by
        simp [EndOfCentralDirectory.write, hreq]
    _ = e.classic_record := List.drop_left' hl

/-- When ZIP64 extensions are not required, the output is exactly the classic
record. -/
theorem eocd_write_not_required (e : EndOfCentralDirectory)
    (hreq : e.requires_zip64_extensions = false) :
    e.write = e.classic_record := by
  simp [EndOfCentralDirectory.write, hreq]

/-- The four 2-or-4-byte promotable fields of the classic record, at their
byte offsets within the record. -/
theorem eocd_classic_record_slices (e : EndOfCentralDirectory) :
    (e.classic_record.drop 8).take 2 =
      u16le (if e.entry_count_current_disk_requires_zip64_extensions then 65535
             else e.central_directory_entry_count_current_disk % 2 ^ 16) ∧
    (e.classic_record.drop 10).take 2 =
      u16le (if e.total_entry_count_requires_zip64_extensions then 65535
             else e.total_central_directory_entry_count % 2 ^ 16) ∧
    (e.classic_record.drop 12).take 4 =
      u32le (if e.central_directory_size_requires_zip64_extensions
             then 4294967295
             else e.central_directory_size % 2 ^ 32) ∧
    (e.classic_record.drop 16).take 4 =
      u32le (if e.central_directory_start_offset_requires_zip64_extensions
             then 4294967295
             else e.central_directory_start_offset % 2 ^ 32) := by
  refine ⟨?_, ?_, ?_, ?_⟩ <;>
    simp [EndOfCentralDirectory.classic_record, END_OF_CENTRAL_DIRECTORY_SIGNATURE,
      u32le, u16le]

/-- The four 8-byte promotable counter fields of the ZIP64 record, at their
byte offsets within the output, when the record is emitted. -/
theorem eocd_zip64_record_slices (e : EndOfCentralDirectory)
    (hreq : e.requires_zip64_extensions = true) :
    (e.write.drop 24).take 8 =
      u64le (if e.zero_out_unused_zip64_fields
                 && !e.entry_count_current_disk_requires_zip64_extensions then 0
             else e.central_directory_entry_count_current_disk) ∧
    (e.write.drop 32).take 8 =
      u64le (if e.zero_out_unused_zip64_fields
                 && !e.total_entry_count_requires_zip64_extensions then 0
             else e.total_central_directory_entry_count) ∧
    (e.write.drop 40).take 8 =
      u64le (if e.zero_out_unused_zip64_fields
                 && !e.central_directory_size_requires_zip64_extensions then 0
             else e.central_directory_size) ∧
    (e.write.drop 48).take 8 =
      u64le (if e.zero_out_unused_zip64_fields
                 && !e.central_directory_start_offset_requires_zip64_extensions
             then 0
             else e.central_directory_start_offset) := by
  refine ⟨?_, ?_, ?_, ?_⟩ <;>
    by_cases hs : e.spoof_version_made_by <;>
    simp [EndOfCentralDirectory.write, EndOfCentralDirectory.zip64_record,
      ZIP64_END_OF_CENTRAL_DIRECTORY_SIGNATURE, hreq, i64le, u64le, u32le,
      u16le, get_version_made_by, hs, ZipFeature.to_version_needed_to_extract]

/-- C3 -- `EndOfCentralDirectory::write` emits the 56-byte ZIP64 record and
its 20-byte locator exactly when one of the four overflow predicates holds;
the 22-byte classic record is always the last 22 bytes; and `get_size()`
(`(56 + 20) * requires_zip64 + 22`, i.e. 98 with ZIP64 and 22 without) equals
the exact number of bytes `write` emits. -/
theorem endOfCentralDirectory_write_size_spec (e : EndOfCentralDirectory) :
    e.write.length = e.get_size ∧
    e.get_size = (if e.requires_zip64_extensions then 98 else 22) ∧
    (e.write.take 56 = e.zip64_record ∧
        (e.write.drop 56).take 20 = e.zip64_locator ↔
      (e.entry_count_current_disk_requires_zip64_extensions
          || e.total_entry_count_requires_zip64_extensions
          || e.central_directory_size_requires_zip64_extensions
          || e.central_directory_start_offset_requires_zip64_extensions) = true) ∧
    e.write.drop (e.write.length - 22) = e.classic_record ∧
    e.classic_record.length = 22 := by
  have hb : e.requires_zip64_extensions =
      (e.entry_count_current_disk_requires_zip64_extensions
        || e.total_entry_count_requires_zip64_extensions
        || e.central_directory_size_requires_zip64_extensions
        || e.central_directory_start_offset_requires_zip64_extensions) := rfl
  have hlen : e.write.length = if e.requires_zip64_extensions then 98 else 22 := by
    by_cases hreq : e.requires_zip64_extensions <;>
      simp [EndOfCentralDirectory.write, hreq, eocd_zip64_record_length,
        eocd_zip64_locator_length, eocd_classic_record_length]
  by_cases hreq : e.requires_zip64_extensions
  · refine ⟨?_, ?_, ?_, ?_, eocd_classic_record_length e⟩
    · simp [hlen, EndOfCentralDirectory.get_size, hreq]
    · simp [EndOfCentralDirectory.get_size, hreq]
    · rw [← hb, hreq]
      refine iff_of_true ⟨?_, ?_⟩ rfl
      · calc e.write.take 56
            = (e.zip64_record ++ (e.zip64_locator ++ e.classic_record)).take 56 := by
              simp [EndOfCentralDirectory.write, hreq]
          _ = e.zip64_record := List.take_left' (eocd_zip64_record_length e)
      · have hd : e.write.drop 56 = e.zip64_locator ++ e.classic_record := by
          calc e.write.drop 56
              = (e.zip64_record ++ (e.zip64_locator ++ e.classic_record)).drop 56 := by
                simp [EndOfCentralDirectory.write, hreq]
            _ = e.zip64_locator ++ e.classic_record :=
                List.drop_left' (eocd_zip64_record_length e)
        rw [hd]
        exact List.take_left' (eocd_zip64_locator_length e)
    · have h76 : e.write.length - 22 = 76 := by rw [hlen, hreq]; rfl
      rw [h76]
      exact eocd_write_drop_76 e hreq
  · have hreqf : e.requires_zip64_extensions = false := by simpa using hreq
    refine ⟨?_, ?_, ?_, ?_, eocd_classic_record_length e⟩
    · simp [hlen, EndOfCentralDirectory.get_size, hreqf]
    · simp [EndOfCentralDirectory.get_size, hreqf]
    · rw [← hb, hreqf]
      refine iff_of_false (fun hcontra => ?_) (by simp)
      have htake := congrArg List.length hcontra.1
      rw [eocd_write_not_required e hreqf] at htake
      rw [List.take_of_length_le (by rw [eocd_classic_record_length]; omega)] at htake
      rw [eocd_classic_record_length, eocd_zip64_record_length] at htake
      exact absurd htake (by decide)
    · have h0 : e.write.length - 22 = 0 := by rw [hlen, hreqf]; rfl
      rw [h0, List.drop_zero]
      exact eocd_write_not_required e hreqf

/-- C3 witness: the size identities evaluated at a concrete
end-of-central-directory with all counters in classic range. -/
theorem endOfCentralDirectory_write_size_spec_witness :
    let e : EndOfCentralDirectory :=
      { disk_number := 0
        central_directory_start_disk_number := 0
        central_directory_entry_count_current_disk := 3
        total_central_directory_entry_count := 3
        central_directory_size := 150
        central_directory_start_offset := 400
        total_number_of_disks := 1
        current_file_offset := 550
        zip64_record_size_offset := 0
        spoof_version_made_by := false
        zero_out_unused_zip64_fields := false }
    e.write.length = e.get_size ∧
    e.get_size = (if e.requires_zip64_extensions then 98 else 22) :=
  ⟨(endOfCentralDirectory_write_size_spec _).1,
   (endOfCentralDirectory_write_size_spec _).2.1⟩

/-- C8 -- when the ZIP64 record is emitted, its 8-byte record-size field
(bytes 4-11 of the output) holds `max(44 + zip64_record_size_offset, 0)`
computed in exact signed arithmetic — never negative, and exactly 0 whenever
the signed-byte correction is below -44 — serialized little-endian. -/
theorem eocd_zip64_record_size_field (e : EndOfCentralDirectory)
    (hreq : e.requires_zip64_extensions = true)
    (hlo : -128 ≤ e.zip64_record_size_offset)
    (hhi : e.zip64_record_size_offset ≤ 127) :
    (e.write.drop 4).take 8 =
      u64le (max (44 + e.zip64_record_size_offset) 0).toNat ∧
    (0 : Int) ≤ max (44 + e.zip64_record_size_offset) 0 ∧
    (e.zip64_record_size_offset < -44 →
      (e.write.drop 4).take 8 = u64le 0) := by
  have hslice : (e.write.drop 4).take 8 =
      i64le (max (44 + e.zip64_record_size_offset) 0) := by
    simp [EndOfCentralDirectory.write, EndOfCentralDirectory.zip64_record,
      ZIP64_END_OF_CENTRAL_DIRECTORY_SIGNATURE, hreq, i64le, u64le, u32le,
      u16le]
  have hpos : (0 : Int) ≤ max (44 + e.zip64_record_size_offset) 0 :=
    le_max_right _ _
  have hsmall : max (44 + e.zip64_record_size_offset) 0 < 2 ^ 64 := by
    rw [max_lt_iff]
    constructor <;> omega
  have hi64 : i64le (max (44 + e.zip64_record_size_offset) 0) =
      u64le (max (44 + e.zip64_record_size_offset) 0).toNat := by
    rw [i64le, Int.emod_eq_of_lt hpos hsmall]
  refine ⟨hslice.trans hi64, hpos, fun hneg => ?_⟩
  have hmax : max (44 + e.zip64_record_size_offset) 0 = 0 :=
    max_eq_right (by omega)
  rw [hslice, hi64, hmax]
  rfl

/-- C8 witness: the record-size field at a concrete end-of-central-directory
that requires ZIP64 and has correction -60 (below -44, so the field is 0). -/
theorem eocd_zip64_record_size_field_witness :
    let e : EndOfCentralDirectory :=
      { disk_number := 0
        central_directory_start_disk_number := 0
        central_directory_entry_count_current_disk := 1
        total_central_directory_entry_count := 70000
        central_directory_size := 100
        central_directory_start_offset := 200
        total_number_of_disks := 1
        current_file_offset := 300
        zip64_record_size_offset := -60
        spoof_version_made_by := false
        zero_out_unused_zip64_fields := false }
    (e.write.drop 4).take 8 =
      u64le (max (44 + e.zip64_record_size_offset) 0).toNat ∧
    (0 : Int) ≤ max (44 + e.zip64_record_size_offset) 0 ∧
    (e.zip64_record_size_offset < -44 →
      (e.write.drop 4).take 8 = u64le 0) :=
  eocd_zip64_record_size_field _ (by decide) (by decide) (by decide)

/-- C9 -- in the emitted ZIP64 end-of-central-directory record, each of the
four promotable 8-byte counter fields (bytes 24-31, 32-39, 40-47, 48-55 of
the output) is zero exactly when `zero_out_unused_zip64_fields` is set and
that specific field does not itself exceed its classic width, and otherwise
holds its real value; in particular a field whose overflow triggered ZIP64 is
never zeroed and always carries its real value. -/
theorem eocd_zip64_field_zeroing (e : EndOfCentralDirectory)
    (hreq : e.requires_zip64_extensions = true) :
    ((e.write.drop 24).take 8 =
        u64le (if e.zero_out_unused_zip64_fields
                   && !e.entry_count_current_disk_requires_zip64_extensions
               then 0
               else e.central_directory_entry_count_current_disk) ∧
      (e.entry_count_current_disk_requires_zip64_extensions = true →
        (e.write.drop 24).take 8 =
          u64le e.central_directory_entry_count_current_disk)) ∧
    ((e.write.drop 32).take 8 =
        u64le (if e.zero_out_unused_zip64_fields
                   && !e.total_entry_count_requires_zip64_extensions
               then 0
               else e.total_central_directory_entry_count) ∧
      (e.total_entry_count_requires_zip64_extensions = true →
        (e.write.drop 32).take 8 =
          u64le e.total_central_directory_entry_count)) ∧
    ((e.write.drop 40).take 8 =
        u64le (if e.zero_out_unused_zip64_fields
                   && !e.central_directory_size_requires_zip64_extensions
               then 0
               else e.central_directory_size) ∧
      (e.central_directory_size_requires_zip64_extensions = true →
        (e.write.drop 40).take 8 = u64le e.central_directory_size)) ∧
    ((e.write.drop 48).take 8 =
        u64le (if e.zero_out_unused_zip64_fields
                   && !e.central_directory_start_offset_requires_zip64_extensions
               then 0
               else e.central_directory_start_offset) ∧
      (e.central_directory_start_offset_requires_zip64_extensions = true →
        (e.write.drop 48).take 8 = u64le e.central_directory_start_offset)) := by
  obtain ⟨hz1, hz2, hz3, hz4⟩ := eocd_zip64_record_slices e hreq
  refine ⟨⟨hz1, fun hf => ?_⟩, ⟨hz2, fun hf => ?_⟩, ⟨hz3, fun hf => ?_⟩,
    ⟨hz4, fun hf => ?_⟩⟩
  · rw [hz1]; simp [hf]
  · rw [hz2]; simp [hf]
  · rw [hz3]; simp [hf]
  · rw [hz4]; simp [hf]

/-- C9 witness: the zeroing behavior at a concrete end-of-central-directory
with the flag set, total entry count 70000 (overflowed, so kept) and
current-disk entry count 1 (in range, so zeroed). -/
theorem eocd_zip64_field_zeroing_witness :
    let e : EndOfCentralDirectory :=
      { disk_number := 0
        central_directory_start_disk_number := 0
        central_directory_entry_count_current_disk := 1
        total_central_directory_entry_count := 70000
        central_directory_size := 100
        central_directory_start_offset := 200
        total_number_of_disks := 1
        current_file_offset := 300
        zip64_record_size_offset := 0
        spoof_version_made_by := false
        zero_out_unused_zip64_fields := true }
    (e.write.drop 24).take 8 =
      u64le (if e.zero_out_unused_zip64_fields
                 && !e.entry_count_current_disk_requires_zip64_extensions
             then 0
             else e.central_directory_entry_count_current_disk) ∧
    (e.write.drop 32).take 8 =
      u64le e.total_central_directory_entry_count :=
  ⟨(eocd_zip64_field_zeroing _ (by decide)).1.1,
   (eocd_zip64_field_zeroing _ (by decide)).2.1.2 (by decide)⟩

/-- C4 -- in the classic end-of-central-directory record (starting at byte 76
of the output when ZIP64 is present, else at byte 0), each promotable field
reads its sentinel (`0xFFFF` / `0xFFFFFFFF`) exactly when that field exceeds
its classic width and otherwise its real value; whenever a field reads the
sentinel, the ZIP64 record emitted before it carries the field's true 64-bit
value. -/
theorem eocd_classic_sentinel_pairing (e : EndOfCentralDirectory) :
    ((e.entry_count_current_disk_requires_zip64_extensions = true →
        (e.write.drop ((if e.requires_zip64_extensions then 76 else 0) + 8)).take 2 =
          u16le 65535 ∧
        (e.write.drop 24).take 8 =
          u64le e.central_directory_entry_count_current_disk) ∧
      (e.entry_count_current_disk_requires_zip64_extensions = false →
        (e.write.drop ((if e.requires_zip64_extensions then 76 else 0) + 8)).take 2 =
          u16le e.central_directory_entry_count_current_disk)) ∧
    ((e.total_entry_count_requires_zip64_extensions = true →
        (e.write.drop ((if e.requires_zip64_extensions then 76 else 0) + 10)).take 2 =
          u16le 65535 ∧
        (e.write.drop 32).take 8 =
          u64le e.total_central_directory_entry_count) ∧
      (e.total_entry_count_requires_zip64_extensions = false →
        (e.write.drop ((if e.requires_zip64_extensions then 76 else 0) + 10)).take 2 =
          u16le e.total_central_directory_entry_count)) ∧
    ((e.central_directory_size_requires_zip64_extensions = true →
        (e.write.drop ((if e.requires_zip64_extensions then 76 else 0) + 12)).take 4 =
          u32le 4294967295 ∧
        (e.write.drop 40).take 8 = u64le e.central_directory_size) ∧
      (e.central_directory_size_requires_zip64_extensions = false →
        (e.write.drop ((if e.requires_zip64_extensions then 76 else 0) + 12)).take 4 =
          u32le e.central_directory_size)) ∧
    ((e.central_directory_start_offset_requires_zip64_extensions = true →
        (e.write.drop ((if e.requires_zip64_extensions then 76 else 0) + 16)).take 4 =
          u32le 4294967295 ∧
        (e.write.drop 48).take 8 = u64le e.central_directory_start_offset) ∧
      (e.central_directory_start_offset_requires_zip64_extensions = false →
        (e.write.drop ((if e.requires_zip64_extensions then 76 else 0) + 16)).take 4 =
          u32le e.central_directory_start_offset)) := by
  obtain ⟨hc1, hc2, hc3, hc4⟩ := eocd_classic_record_slices e
  by_cases hreq : e.requires_zip64_extensions
  · obtain ⟨hz1, hz2, hz3, hz4⟩ := eocd_zip64_record_slices e hreq
    have hdrop76 := eocd_write_drop_76 e hreq
    have hsplit : ∀ n : Nat, e.write.drop (76 + n) = e.classic_record.drop n := by
      intro n
      rw [← List.drop_drop, hdrop76]
    have h84 : e.write.drop 84 = e.classic_record.drop 8 := by
      have h := hsplit 8; norm_num at h; exact h
    have h86 : e.write.drop 86 = e.classic_record.drop 10 := by
      have h := hsplit 10; norm_num at h; exact h
    have h88 : e.write.drop 88 = e.classic_record.drop 12 := by
      have h := hsplit 12; norm_num at h; exact h
    have h92 : e.write.drop 92 = e.classic_record.drop 16 := by
      have h := hsplit 16; norm_num at h; exact h
    simp only [hreq]
    norm_num [h84, h86, h88, h92, hc1, hc2, hc3, hc4]
    refine ⟨⟨fun hf => ⟨by simp [hf], by rw [hz1]; simp [hf]⟩, fun hf => ?_⟩,
      ⟨fun hf => ⟨by simp [hf], by rw [hz2]; simp [hf]⟩, fun hf => ?_⟩,
      ⟨fun hf => ⟨by simp [hf], by rw [hz3]; simp [hf]⟩, fun hf => ?_⟩,
      ⟨fun hf => ⟨by simp [hf], by rw [hz4]; simp [hf]⟩, fun hf => ?_⟩⟩
    · simp only [hf, Bool.false_eq_true, if_false]
      refine congrArg u16le (Nat.mod_eq_of_lt ?_)
      simp [EndOfCentralDirectory.entry_count_current_disk_requires_zip64_extensions]
        at hf
      omega
    · simp only [hf, Bool.false_eq_true, if_false]
      refine congrArg u16le (Nat.mod_eq_of_lt ?_)
      simp [EndOfCentralDirectory.total_entry_count_requires_zip64_extensions] at hf
      omega
    · simp only [hf, Bool.false_eq_true, if_false]
      refine congrArg u32le (Nat.mod_eq_of_lt ?_)
      simp [EndOfCentralDirectory.central_directory_size_requires_zip64_extensions]
        at hf
      omega
    · simp only [hf, Bool.false_eq_true, if_false]
      refine congrArg u32le (Nat.mod_eq_of_lt ?_)
      simp [EndOfCentralDirectory.central_directory_start_offset_requires_zip64_extensions]
        at hf
      omega
  · have hreqf : e.requires_zip64_extensions = false := by simpa using hreq
    have hall : e.entry_count_current_disk_requires_zip64_extensions = false ∧
        e.total_entry_count_requires_zip64_extensions = false ∧
        e.central_directory_size_requires_zip64_extensions = false ∧
        e.central_directory_start_offset_requires_zip64_extensions = false := by
      have h := hreqf
      simp [EndOfCentralDirectory.requires_zip64_extensions] at h
      tauto
    obtain ⟨hf1, hf2, hf3, hf4⟩ := hall
    have hwc := eocd_write_not_required e hreqf
    simp only [hreqf]
    norm_num [hwc, hc1, hc2, hc3, hc4, hf1, hf2, hf3, hf4]
    refine ⟨?_, ?_, ?_, ?_⟩
    · refine congrArg u16le (Nat.mod_eq_of_lt ?_)
      simp [EndOfCentralDirectory.entry_count_current_disk_requires_zip64_extensions]
        at hf1
      omega
    · refine congrArg u16le (Nat.mod_eq_of_lt ?_)
      simp [EndOfCentralDirectory.total_entry_count_requires_zip64_extensions] at hf2
      omega
    · refine congrArg u32le (Nat.mod_eq_of_lt ?_)
      simp [EndOfCentralDirectory.central_directory_size_requires_zip64_extensions]
        at hf3
      omega
    · refine congrArg u32le (Nat.mod_eq_of_lt ?_)
      simp [EndOfCentralDirectory.central_directory_start_offset_requires_zip64_extensions]
        at hf4
      omega

/-- C4 witness: total entry count 70000 with all else in range yields classic
total-entry-count field `0xFFFF` and ZIP64 total-entry-count field 70000,
while the in-range current-disk count keeps its real value in the classic
record. -/
theorem eocd_classic_sentinel_pairing_witness :
    let e : EndOfCentralDirectory :=
      { disk_number := 0
        central_directory_start_disk_number := 0
        central_directory_entry_count_current_disk := 1
        total_central_directory_entry_count := 70000
        central_directory_size := 100
        central_directory_start_offset := 200
        total_number_of_disks := 1
        current_file_offset := 300
        zip64_record_size_offset := 0
        spoof_version_made_by := false
        zero_out_unused_zip64_fields := false }
    ((e.write.drop ((if e.requires_zip64_extensions then 76 else 0) + 10)).take 2 =
        u16le 65535 ∧
      (e.write.drop 32).take 8 = u64le e.total_central_directory_entry_count) ∧
    (e.write.drop ((if e.requires_zip64_extensions then 76 else 0) + 8)).take 2 =
      u16le e.central_directory_entry_count_current_disk :=
  ⟨(eocd_classic_sentinel_pairing _).2.1.1 (by decide),
   (eocd_classic_sentinel_pairing _).1.2 (by decide)⟩

end ZipRec
